import Mathlib

/-!
Verification of the agent orchestration core of the repository
(service/agent_core.py): conversation history with retention trimming,
tool registry lookup, tool execution with failure capture, and the
agentic chat loop with its iteration cap.

The Python classes ConversationHistory and Agent are shallowly embedded:
messages are an inductive type mirroring the LangChain message classes
used by the code, mutating methods become functions from the old state to
the new state, the model gateway is a parameter mapping a message list to
a response, and tool invocation returns an Except value (error = raised
exception, carrying the stringified cause).
-/

/-- A tool call request as issued by the model: an id, a tool name and an
arguments mapping (parameter name to value). -/
structure ToolCallRequest where
  id : String
  name : String
  args : List (String × String)
deriving DecidableEq

/-- The four LangChain message kinds the code stores: SystemMessage,
HumanMessage, AIMessage (with an optional tool-calls payload, the empty
list standing for the absent metadata key) and ToolMessage (a tool result
carrying the originating tool-call id). -/
inductive Message where
  | SystemMessage (content : String)
  | HumanMessage (content : String)
  | AIMessage (content : String) (tool_calls : List ToolCallRequest)
  | ToolMessage (content : String) (tool_call_id : String)
deriving DecidableEq

/-- True exactly on system messages (the isinstance SystemMessage tests
of the code). -/
def Message.isSystem : Message → Bool
  | Message.SystemMessage _ => true
  | _ => false

/-- True exactly on tool-result messages. -/
def Message.isToolMsg : Message → Bool
  | Message.ToolMessage _ _ => true
  | _ => false

/-- A model gateway response: text content plus the list of tool-call
requests (empty when the model produced a final text answer). -/
structure Response where
  content : String
  tool_calls : List ToolCallRequest

/-- A registered tool: its name and its invoke function; Except.error
models a raised exception, carrying the stringified cause. -/
structure Tool where
  name : String
  invoke : List (String × String) → Except String String

/-- Python slicing l[-k:] for a natural k: for k = 0 this is the whole
list (since -0 == 0 in Python), otherwise the last k elements. -/
def tailSlice (l : List α) (k : Nat) : List α :=
  if k = 0 then l else l.drop (l.length - k)

/-- ConversationHistory state: the fixed system prompt, the retention
bound max_turns, and the stored message list. -/
structure ConversationHistory where
  system_prompt : String
  max_turns : Nat
  messages : List Message
deriving DecidableEq

/-- ConversationHistory trim: if the non-system messages number more
than max_turns * 2, keep all system messages followed by the Python
slice non_system[-(max_turns * 2):] of the non-system messages. -/
def ConversationHistory.trim (h : ConversationHistory) : ConversationHistory :=
  if (h.messages.filter (fun m => !m.isSystem)).length > h.max_turns * 2 then
    { h with messages :=
        h.messages.filter (fun m => m.isSystem)
          ++ tailSlice (h.messages.filter (fun m => !m.isSystem)) (h.max_turns * 2) }
  else h

/-- ConversationHistory add_user: append a HumanMessage, then trim. -/
def ConversationHistory.add_user (h : ConversationHistory) (content : String) :
    ConversationHistory :=
  ConversationHistory.trim { h with messages := h.messages ++ [Message.HumanMessage content] }

/-- ConversationHistory add_assistant: append an AIMessage with the given
tool-calls payload (empty list when none), then trim. -/
def ConversationHistory.add_assistant (h : ConversationHistory) (content : String)
    (tool_calls : List ToolCallRequest) : ConversationHistory :=
  ConversationHistory.trim { h with messages := h.messages ++ [Message.AIMessage content tool_calls] }

/-- ConversationHistory add_tool_result: append a ToolMessage, then trim. -/
def ConversationHistory.add_tool_result (h : ConversationHistory) (tool_call_id : String)
    (content : String) : ConversationHistory :=
  ConversationHistory.trim { h with messages := h.messages ++ [Message.ToolMessage content tool_call_id] }

/-- ConversationHistory get: when the system prompt is non-empty (Python
truthiness) and no system message is stored, return a fresh list with a
SystemMessage prepended; otherwise return the stored list. -/
def ConversationHistory.get (h : ConversationHistory) : List Message :=
  if h.system_prompt ≠ "" then
    if h.messages.any Message.isSystem then h.messages
    else Message.SystemMessage h.system_prompt :: h.messages
  else h.messages

/-- ConversationHistory clear: empty the stored list; the other fields
persist. -/
def ConversationHistory.clear (h : ConversationHistory) : ConversationHistory :=
  { h with messages := [] }

/-- The get method performs no field assignment: its translation returns
the computed list together with the unchanged receiver state. -/
def ConversationHistory.getCall (h : ConversationHistory) :
    List Message × ConversationHistory :=
  (h.get, h)

/-- n consecutive calls of the get method, each continuing from the state
the previous call left behind, collecting the returned lists. -/
def ConversationHistory.getCallIter : Nat → ConversationHistory →
    List (List Message) × ConversationHistory
  | 0, h => ([], h)
  | Nat.succ n, h =>
    let r := h.getCall
    let rest := ConversationHistory.getCallIter n r.2
    (r.1 :: rest.1, rest.2)

/-- Dictionary lookup in the tool registry (Python dict get by name). -/
def lookupTool (name : String) : List (String × Tool) → Option Tool
  | [] => none
  | (n, t) :: rest => if n = name then some t else lookupTool name rest

/-- Agent state: the resolved system prompt, the tool registry (name to
tool), and the conversation history. -/
structure Agent where
  system_prompt : String
  tools : List (String × Tool)
  conversation : ConversationHistory

/-- The default system prompt of the Agent constructor. -/
def defaultSystemPrompt : String :=
  "你是一个专业的实验室面试助手 Agent。

你的能力：
1. **姓名匹配**：用户可以说\"分析张三的表现\"，你需要先通过 lookup_interviewees_by_name 工具模糊查找到对应的面试者 ID，再调用分析工具。
2. **批处理**：用户可以说\"统计所有面试者\"或\"分析张三和李四\"，你需要对多个面试者批量调用工具并汇总结果。
3. **发送邮件**：分析完成后，可以将报告通过邮件发送给对应面试者。
4. **综合分析**：你可以连续调用多个工具完成复杂任务。

工作原则：
- 当用户提到人名时，始终先查找确认 ID，再进行操作
- 批量操作时，为每个人单独调用工具并整合结果
- 发邮件前，确认已获取到报告内容和正确邮箱
- 用中文回复，语言简洁专业"

/-- Agent construction: the system prompt is the given one when truthy
(non-empty), else the default; the registry starts empty; the
conversation is created with that prompt and the default max_turns 30. -/
def Agent.init (system_prompt : Option String) : Agent :=
  let prompt :=
    match system_prompt with
    | none => defaultSystemPrompt
    | some s => if s = "" then defaultSystemPrompt else s
  { system_prompt := prompt
    tools := []
    conversation := { system_prompt := prompt, max_turns := 30, messages := [] } }

/-- Agent execute tool call: resolve the name in the registry; when
absent return the not-found error string; when present invoke the tool,
returning its result or, when it raised, the failure string carrying the
tool name and the cause. -/
def Agent.execute_tool_call (a : Agent) (tc : ToolCallRequest) : String :=
  match lookupTool tc.name a.tools with
  | none => "❌ 错误：未找到工具 [" ++ tc.name ++ "]"
  | some tool_obj =>
    match tool_obj.invoke tc.args with
    | Except.ok r => r
    | Except.error e => "❌ 工具执行失败 [" ++ tc.name ++ "]: " ++ e

/-- One tool-calling iteration of the chat loop: query the gateway on
the history, record the assistant message with its tool calls, then for
each request in order execute it and record the tool result. -/
def Agent.toolStep (gw : List Message → Response) (a : Agent) : Agent :=
  { a with
    conversation :=
      ((gw a.conversation.get).tool_calls).foldl
        (fun c tc => c.add_tool_result tc.id (a.execute_tool_call tc))
        (a.conversation.add_assistant (gw a.conversation.get).content
          (gw a.conversation.get).tool_calls) }

/-- The cap sentinel string returned when the iteration cap is exhausted. -/
def capSentinel : String := "[Agent] 达到最大工具调用次数，任务未完成"

/-- The agentic loop of Agent.chat, with the remaining iteration budget
as fuel: when the budget is exhausted, return the cap sentinel and the
accumulated state; otherwise query the gateway, and either run a tool
iteration and continue, or record the final assistant text and return
it. -/
def Agent.chatLoop (gw : List Message → Response) : Nat → Agent → String × Agent
  | 0, a => (capSentinel, a)
  | Nat.succ fuel, a =>
    if ((gw a.conversation.get).tool_calls).isEmpty then
      ((gw a.conversation.get).content,
        { a with conversation :=
            a.conversation.add_assistant (gw a.conversation.get).content [] })
    else
      Agent.chatLoop gw fuel (Agent.toolStep gw a)

/-- Agent.chat: append the user input to the history, then run the
agentic loop with the fixed cap of 10 iterations. -/
def Agent.chat (a : Agent) (gw : List Message → Response) (user_input : String) :
    String × Agent :=
  Agent.chatLoop gw 10 { a with conversation := a.conversation.add_user user_input }

/-- Agent clear_conversation: clear the owned conversation history. -/
def Agent.clear_conversation (a : Agent) : Agent :=
  { a with conversation := a.conversation.clear }

/-! Analysis functions over message lists, used to state the claims. -/

/-- All tool-call request ids issued by assistant messages, in order. -/
def requestIds : List Message → List String
  | [] => []
  | Message.AIMessage _ tcs :: rest => tcs.map ToolCallRequest.id ++ requestIds rest
  | _ :: rest => requestIds rest

/-- All tool-result message ids, in order. -/
def resultIds : List Message → List String
  | [] => []
  | Message.ToolMessage _ cid :: rest => cid :: resultIds rest
  | _ :: rest => resultIds rest

/-- Number of non-system messages in a list. -/
def nonSystemCount (l : List Message) : Nat :=
  (l.filter (fun m => !m.isSystem)).length

/-- Number of system messages in a list. -/
def systemCount (l : List Message) : Nat :=
  (l.filter Message.isSystem).length

/-- Checks, scanning left to right with the set of already-issued request
ids, that every tool-result message refers to a request issued by an
earlier assistant message. -/
def wellPairedFrom (seen : List String) : List Message → Bool
  | [] => true
  | Message.SystemMessage _ :: rest => wellPairedFrom seen rest
  | Message.HumanMessage _ :: rest => wellPairedFrom seen rest
  | Message.AIMessage _ tcs :: rest =>
      wellPairedFrom (seen ++ tcs.map ToolCallRequest.id) rest
  | Message.ToolMessage _ cid :: rest => decide (cid ∈ seen) && wellPairedFrom seen rest

/-- The invariant chat maintains at every model-call point: result ids
equal request ids as ordered lists, request ids are pairwise distinct,
and every result refers to an earlier request. -/
def resolvedInv (l : List Message) : Prop :=
  resultIds l = requestIds l ∧ (requestIds l).Nodup ∧ wellPairedFrom [] l = true

/-- A two-phase gateway stub: while the history holds no tool result it
requests the single tool call tc; from the first tool result on it
answers with the final text t. -/
def stubGateway (tc : ToolCallRequest) (t : String) : List Message → Response :=
  fun hs =>
    if hs.any Message.isToolMsg then { content := t, tool_calls := [] }
    else { content := "", tool_calls := [tc] }

/-! Helper lemmas about trimming, the mutators and the analysis functions. -/

theorem ConversationHistory.trim_of_le (h : ConversationHistory)
    (hle : nonSystemCount h.messages ≤ h.max_turns * 2) : h.trim = h := by
  unfold ConversationHistory.trim
  rw [if_neg]
  exact Nat.not_lt.mpr hle

theorem ConversationHistory.trim_max_turns (h : ConversationHistory) :
    h.trim.max_turns = h.max_turns := by
  unfold ConversationHistory.trim
  split <;> rfl

theorem ConversationHistory.trim_system_prompt (h : ConversationHistory) :
    h.trim.system_prompt = h.system_prompt := by
  unfold ConversationHistory.trim
  split <;> rfl

theorem nonSystemCount_append (l1 l2 : List Message) :
    nonSystemCount (l1 ++ l2) = nonSystemCount l1 + nonSystemCount l2 := by
  simp [nonSystemCount, List.filter_append]

theorem nonSystemCount_single (m : Message) (hm : m.isSystem = false) :
    nonSystemCount [m] = 1 := by
  simp [nonSystemCount, List.filter_cons, hm]

theorem append_one_trim (h : ConversationHistory) (m : Message) (hm : m.isSystem = false)
    (hle : nonSystemCount h.messages + 1 ≤ h.max_turns * 2) :
    ConversationHistory.trim { h with messages := h.messages ++ [m] }
      = { h with messages := h.messages ++ [m] } := by
  apply ConversationHistory.trim_of_le
  show nonSystemCount (h.messages ++ [m]) ≤ h.max_turns * 2
  rw [nonSystemCount_append, nonSystemCount_single m hm]
  omega

theorem add_user_eq (h : ConversationHistory) (c : String)
    (hle : nonSystemCount h.messages + 1 ≤ h.max_turns * 2) :
    h.add_user c = { h with messages := h.messages ++ [Message.HumanMessage c] } :=
  append_one_trim h _ rfl hle

theorem add_assistant_eq (h : ConversationHistory) (c : String) (tcs : List ToolCallRequest)
    (hle : nonSystemCount h.messages + 1 ≤ h.max_turns * 2) :
    h.add_assistant c tcs
      = { h with messages := h.messages ++ [Message.AIMessage c tcs] } :=
  append_one_trim h _ rfl hle

theorem add_tool_result_eq (h : ConversationHistory) (cid s : String)
    (hle : nonSystemCount h.messages + 1 ≤ h.max_turns * 2) :
    h.add_tool_result cid s
      = { h with messages := h.messages ++ [Message.ToolMessage s cid] } :=
  append_one_trim h _ rfl hle

theorem foldl_add_tool_result (f : ToolCallRequest → String) (tcs : List ToolCallRequest) :
    ∀ c : ConversationHistory,
      nonSystemCount c.messages + tcs.length ≤ c.max_turns * 2 →
      (tcs.foldl (fun acc tc => acc.add_tool_result tc.id (f tc)) c).messages
          = c.messages ++ tcs.map (fun tc => Message.ToolMessage (f tc) tc.id)
        ∧ (tcs.foldl (fun acc tc => acc.add_tool_result tc.id (f tc)) c).max_turns
          = c.max_turns := by
  induction tcs with
  | nil =>
    intro c _
    simp
  | cons tc rest ih =>
    intro c hle
    have h1 : nonSystemCount c.messages + 1 ≤ c.max_turns * 2 := by
      simp only [List.length_cons] at hle
      omega
    have hcount : nonSystemCount (c.messages ++ [Message.ToolMessage (f tc) tc.id])
        = nonSystemCount c.messages + 1 := by
      rw [nonSystemCount_append,
        nonSystemCount_single (Message.ToolMessage (f tc) tc.id) rfl]
    rw [List.foldl_cons, add_tool_result_eq c tc.id (f tc) h1]
    have hrec := ih { c with messages := c.messages ++ [Message.ToolMessage (f tc) tc.id] }
      (by
        show nonSystemCount (c.messages ++ [Message.ToolMessage (f tc) tc.id]) + rest.length
          ≤ c.max_turns * 2
        rw [hcount]
        simp only [List.length_cons] at hle
        omega)
    rcases hrec with ⟨hm, hmt⟩
    constructor
    · rw [hm]
      simp
    · rw [hmt]

theorem requestIds_append (l1 l2 : List Message) :
    requestIds (l1 ++ l2) = requestIds l1 ++ requestIds l2 := by
  induction l1 with
  | nil => rfl
  | cons m rest ih => cases m <;> simp [requestIds, ih]

theorem resultIds_append (l1 l2 : List Message) :
    resultIds (l1 ++ l2) = resultIds l1 ++ resultIds l2 := by
  induction l1 with
  | nil => rfl
  | cons m rest ih => cases m <;> simp [resultIds, ih]

theorem requestIds_toolMsgs (tcs : List ToolCallRequest) (f : ToolCallRequest → String) :
    requestIds (tcs.map (fun tc => Message.ToolMessage (f tc) tc.id)) = [] := by
  induction tcs with
  | nil => rfl
  | cons tc rest ih => simp [requestIds, ih]

theorem resultIds_toolMsgs (tcs : List ToolCallRequest) (f : ToolCallRequest → String) :
    resultIds (tcs.map (fun tc => Message.ToolMessage (f tc) tc.id))
      = tcs.map ToolCallRequest.id := by
  induction tcs with
  | nil => rfl
  | cons tc rest ih => simp [resultIds, ih]

theorem wellPairedFrom_append (l1 : List Message) :
    ∀ (seen : List String) (l2 : List Message),
      wellPairedFrom seen (l1 ++ l2)
        = (wellPairedFrom seen l1 && wellPairedFrom (seen ++ requestIds l1) l2) := by
  induction l1 with
  | nil =>
    intro seen l2
    simp [wellPairedFrom, requestIds]
  | cons m rest ih =>
    intro seen l2
    cases m with
    | SystemMessage c => simp [wellPairedFrom, requestIds, ih]
    | HumanMessage c => simp [wellPairedFrom, requestIds, ih]
    | AIMessage c tcs => simp [wellPairedFrom, requestIds, ih, List.append_assoc]
    | ToolMessage c cid => simp [wellPairedFrom, requestIds, ih, Bool.and_assoc]

theorem wellPairedFrom_toolMsgs (tcs : List ToolCallRequest) (f : ToolCallRequest → String) :
    ∀ seen : List String, (∀ tc ∈ tcs, tc.id ∈ seen) →
      wellPairedFrom seen (tcs.map (fun tc => Message.ToolMessage (f tc) tc.id)) = true := by
  induction tcs with
  | nil =>
    intro seen _
    rfl
  | cons tc rest ih =>
    intro seen hmem
    simp only [List.map_cons, wellPairedFrom, Bool.and_eq_true, decide_eq_true_eq]
    constructor
    · exact hmem tc (by simp)
    · exact ih seen (fun x hx => hmem x (by simp [hx]))

theorem requestIds_get (h : ConversationHistory) :
    requestIds h.get = requestIds h.messages := by
  unfold ConversationHistory.get
  split
  · split
    · rfl
    · simp [requestIds]
  · rfl

theorem get_eq_or (h : ConversationHistory) :
    h.get = h.messages ∨ h.get = Message.SystemMessage h.system_prompt :: h.messages := by
  unfold ConversationHistory.get
  split
  · split
    · exact Or.inl rfl
    · exact Or.inr rfl
  · exact Or.inl rfl

theorem get_any_toolMsg (h : ConversationHistory) :
    h.get.any Message.isToolMsg = h.messages.any Message.isToolMsg := by
  rcases get_eq_or h with he | he <;> rw [he]
  simp [Message.isToolMsg]

theorem resolvedInv_extend (l : List Message) (c : String) (tcs : List ToolCallRequest)
    (f : ToolCallRequest → String)
    (hinv : resolvedInv l)
    (hnd : (tcs.map ToolCallRequest.id).Nodup)
    (hfresh : ∀ tc ∈ tcs, tc.id ∉ requestIds l) :
    resolvedInv (l ++ Message.AIMessage c tcs
      :: tcs.map (fun tc => Message.ToolMessage (f tc) tc.id)) := by
  obtain ⟨hres, hnodup, hwpf⟩ := hinv
  have hreq : requestIds (l ++ Message.AIMessage c tcs
      :: tcs.map (fun tc => Message.ToolMessage (f tc) tc.id))
      = requestIds l ++ tcs.map ToolCallRequest.id := by
    rw [requestIds_append]
    simp [requestIds, requestIds_toolMsgs]
  have hresl : resultIds (l ++ Message.AIMessage c tcs
      :: tcs.map (fun tc => Message.ToolMessage (f tc) tc.id))
      = resultIds l ++ tcs.map ToolCallRequest.id := by
    rw [resultIds_append]
    simp [resultIds, resultIds_toolMsgs]
  refine ⟨?_, ?_, ?_⟩
  · rw [hreq, hresl, hres]
  · rw [hreq]
    rw [List.nodup_append]
    refine ⟨hnodup, hnd, ?_⟩
    intro x hx hx2
    rcases List.mem_map.mp hx2 with ⟨tc, htc, hid⟩
    exact hfresh tc htc (hid ▸ hx)
  · rw [wellPairedFrom_append]
    rw [hwpf]
    simp only [Bool.true_and, List.nil_append]
    show wellPairedFrom (requestIds l) (Message.AIMessage c tcs
      :: tcs.map (fun tc => Message.ToolMessage (f tc) tc.id)) = true
    simp only [wellPairedFrom]
    apply wellPairedFrom_toolMsgs
    intro tc htc
    exact List.mem_append_right _ (List.mem_map.mpr ⟨tc, htc, rfl⟩)

theorem chatLoop_zero (gw : List Message → Response) (a : Agent) :
    Agent.chatLoop gw 0 a = (capSentinel, a) := rfl

theorem chatLoop_succ (gw : List Message → Response) (fuel : Nat) (a : Agent) :
    Agent.chatLoop gw (Nat.succ fuel) a
      = if ((gw a.conversation.get).tool_calls).isEmpty then
          ((gw a.conversation.get).content,
            { a with conversation :=
                a.conversation.add_assistant (gw a.conversation.get).content [] })
        else Agent.chatLoop gw fuel (Agent.toolStep gw a) := rfl

theorem nonSystemCount_cons (m : Message) (l : List Message) (hm : m.isSystem = false) :
    nonSystemCount (m :: l) = nonSystemCount l + 1 := by
  simp [nonSystemCount, List.filter_cons, hm]

theorem nonSystemCount_toolMsgs (tcs : List ToolCallRequest) (f : ToolCallRequest → String) :
    nonSystemCount (tcs.map (fun tc => Message.ToolMessage (f tc) tc.id)) = tcs.length := by
  induction tcs with
  | nil => rfl
  | cons tc rest ih =>
    rw [List.map_cons,
      nonSystemCount_cons (Message.ToolMessage (f tc) tc.id) _ rfl, ih, List.length_cons]

theorem add_user_max_turns (h : ConversationHistory) (c : String) :
    (h.add_user c).max_turns = h.max_turns := by
  unfold ConversationHistory.add_user
  rw [ConversationHistory.trim_max_turns]

theorem add_user_system_prompt (h : ConversationHistory) (c : String) :
    (h.add_user c).system_prompt = h.system_prompt := by
  unfold ConversationHistory.add_user
  rw [ConversationHistory.trim_system_prompt]

theorem toolStep_spec (gw : List Message → Response) (a : Agent) (r : Response)
    (hr : gw a.conversation.get = r)
    (hle : nonSystemCount a.conversation.messages + (r.tool_calls.length + 1)
        ≤ a.conversation.max_turns * 2) :
    (Agent.toolStep gw a).conversation.messages
        = a.conversation.messages
          ++ Message.AIMessage r.content r.tool_calls
            :: r.tool_calls.map (fun tc => Message.ToolMessage (a.execute_tool_call tc) tc.id)
      ∧ (Agent.toolStep gw a).conversation.max_turns = a.conversation.max_turns := by
  have h1 : nonSystemCount a.conversation.messages + 1 ≤ a.conversation.max_turns * 2 := by
    omega
  have hf := foldl_add_tool_result a.execute_tool_call r.tool_calls
    { a.conversation with
      messages := a.conversation.messages ++ [Message.AIMessage r.content r.tool_calls] }
    (by
      show nonSystemCount (a.conversation.messages ++ [Message.AIMessage r.content r.tool_calls])
          + r.tool_calls.length ≤ a.conversation.max_turns * 2
      rw [nonSystemCount_append,
        nonSystemCount_single (Message.AIMessage r.content r.tool_calls) rfl]
      omega)
  rcases hf with ⟨hm, hmt⟩
  constructor
  · show (((gw a.conversation.get).tool_calls).foldl
        (fun c tc => c.add_tool_result tc.id (a.execute_tool_call tc))
        (a.conversation.add_assistant (gw a.conversation.get).content
          (gw a.conversation.get).tool_calls)).messages = _
    rw [hr, add_assistant_eq a.conversation r.content r.tool_calls h1, hm]
    simp
  · show (((gw a.conversation.get).tool_calls).foldl
        (fun c tc => c.add_tool_result tc.id (a.execute_tool_call tc))
        (a.conversation.add_assistant (gw a.conversation.get).content
          (gw a.conversation.get).tool_calls)).max_turns = _
    rw [hr, add_assistant_eq a.conversation r.content r.tool_calls h1, hmt]

theorem chatLoop_always_tools (gw : List Message → Response)
    (hgw : ∀ hs, (gw hs).tool_calls ≠ []) :
    ∀ (fuel : Nat) (b : Agent),
      Agent.chatLoop gw fuel b = (capSentinel, (Agent.toolStep gw)^[fuel] b) := by
  intro fuel
  induction fuel with
  | zero =>
    intro b
    rfl
  | succ n ih =>
    intro b
    rw [chatLoop_succ, if_neg, Function.iterate_succ_apply]
    · exact ih (Agent.toolStep gw b)
    · simp only [List.isEmpty_iff]
      exact hgw _

theorem chatLoop_resolvedInv (gw : List Message → Response) (K : Nat)
    (hK : ∀ hs, ((gw hs).tool_calls).length ≤ K)
    (hnd : ∀ hs, (((gw hs).tool_calls).map ToolCallRequest.id).Nodup)
    (hfresh : ∀ hs, ∀ tc ∈ (gw hs).tool_calls, tc.id ∉ requestIds hs) :
    ∀ (fuel : Nat) (a : Agent),
      resolvedInv a.conversation.messages →
      nonSystemCount a.conversation.messages + fuel * (K + 1)
          ≤ a.conversation.max_turns * 2 →
      resolvedInv (Agent.chatLoop gw fuel a).2.conversation.messages := by
  intro fuel
  induction fuel with
  | zero =>
    intro a hinv _
    exact hinv
  | succ n ih =>
    intro a hinv hcap
    rw [Nat.succ_mul] at hcap
    by_cases hemp : ((gw a.conversation.get).tool_calls).isEmpty = true
    · rw [chatLoop_succ, if_pos hemp]
      have h1 : nonSystemCount a.conversation.messages + 1
          ≤ a.conversation.max_turns * 2 := by
        omega
      show resolvedInv
        (a.conversation.add_assistant (gw a.conversation.get).content []).messages
      rw [add_assistant_eq a.conversation (gw a.conversation.get).content [] h1]
      show resolvedInv
        (a.conversation.messages ++ [Message.AIMessage (gw a.conversation.get).content []])
      exact resolvedInv_extend a.conversation.messages (gw a.conversation.get).content []
        (fun _ => "") hinv (by simp) (by simp)
    · rw [chatLoop_succ, if_neg hemp]
      have hlen := hK a.conversation.get
      have hle2 : nonSystemCount a.conversation.messages
          + (((gw a.conversation.get).tool_calls).length + 1)
          ≤ a.conversation.max_turns * 2 := by
        omega
      rcases toolStep_spec gw a (gw a.conversation.get) rfl hle2 with ⟨hm, hmt⟩
      have hcount2 : nonSystemCount (Agent.toolStep gw a).conversation.messages
          = nonSystemCount a.conversation.messages
            + (((gw a.conversation.get).tool_calls).length + 1) := by
        rw [hm, nonSystemCount_append,
          nonSystemCount_cons
            (Message.AIMessage (gw a.conversation.get).content
              ((gw a.conversation.get).tool_calls)) _ rfl,
          nonSystemCount_toolMsgs]
      apply ih
      · rw [hm]
        apply resolvedInv_extend a.conversation.messages (gw a.conversation.get).content
          ((gw a.conversation.get).tool_calls) a.execute_tool_call hinv
          (hnd a.conversation.get)
        intro tc htc
        have hf := hfresh a.conversation.get tc htc
        rw [requestIds_get] at hf
        exact hf
      · rw [hcount2, hmt]
        omega

theorem trim_retention (h : ConversationHistory) (hmt : 1 ≤ h.max_turns) :
    nonSystemCount h.trim.messages ≤ h.max_turns * 2
    ∧ h.trim.messages.filter Message.isSystem = h.messages.filter Message.isSystem
    ∧ (h.trim.messages.filter (fun m => !m.isSystem))
        <:+ (h.messages.filter (fun m => !m.isSystem)) := by
  unfold ConversationHistory.trim
  by_cases hc : (h.messages.filter (fun m => !m.isSystem)).length > h.max_turns * 2
  · rw [if_pos hc]
    have hk : ¬ h.max_turns * 2 = 0 := by omega
    have hdropSub : ∀ x ∈ (h.messages.filter (fun m => !m.isSystem)).drop
        ((h.messages.filter (fun m => !m.isSystem)).length - h.max_turns * 2),
        x ∈ h.messages.filter (fun m => !m.isSystem) :=
      fun x hx => List.mem_of_mem_drop hx
    have hnsProp : ∀ x ∈ h.messages.filter (fun m => !m.isSystem), (!x.isSystem) = true :=
      fun x hx => (List.mem_filter.mp hx).2
    have hsysProp : ∀ x ∈ h.messages.filter Message.isSystem, x.isSystem = true :=
      fun x hx => (List.mem_filter.mp hx).2
    have hfns : (h.messages.filter Message.isSystem).filter (fun m => !m.isSystem) = [] := by
      rw [List.filter_eq_nil_iff]
      intro x hx
      simp [hsysProp x hx]
    have hfd : ((h.messages.filter (fun m => !m.isSystem)).drop
        ((h.messages.filter (fun m => !m.isSystem)).length - h.max_turns * 2)).filter
          (fun m => !m.isSystem)
        = (h.messages.filter (fun m => !m.isSystem)).drop
            ((h.messages.filter (fun m => !m.isSystem)).length - h.max_turns * 2) := by
      rw [List.filter_eq_self]
      intro x hx
      exact hnsProp x (hdropSub x hx)
    have hfs : (h.messages.filter Message.isSystem).filter Message.isSystem
        = h.messages.filter Message.isSystem := by
      rw [List.filter_eq_self]
      exact hsysProp
    have hfds : ((h.messages.filter (fun m => !m.isSystem)).drop
        ((h.messages.filter (fun m => !m.isSystem)).length - h.max_turns * 2)).filter
          Message.isSystem = [] := by
      rw [List.filter_eq_nil_iff]
      intro x hx
      have hx2 := hnsProp x (hdropSub x hx)
      simp only [Bool.not_eq_true'] at hx2
      simp [hx2]
    refine ⟨?_, ?_, ?_⟩
    · show nonSystemCount (h.messages.filter (fun m => m.isSystem)
          ++ tailSlice (h.messages.filter (fun m => !m.isSystem)) (h.max_turns * 2))
        ≤ h.max_turns * 2
      unfold tailSlice
      rw [if_neg hk, nonSystemCount, List.filter_append, hfns, hfd, List.nil_append,
        List.length_drop]
      omega
    · show (h.messages.filter (fun m => m.isSystem)
          ++ tailSlice (h.messages.filter (fun m => !m.isSystem)) (h.max_turns * 2)).filter
            Message.isSystem = h.messages.filter Message.isSystem
      unfold tailSlice
      rw [if_neg hk, List.filter_append, hfds, List.append_nil, hfs]
    · show ((h.messages.filter (fun m => m.isSystem)
          ++ tailSlice (h.messages.filter (fun m => !m.isSystem)) (h.max_turns * 2)).filter
            (fun m => !m.isSystem))
        <:+ (h.messages.filter (fun m => !m.isSystem))
      unfold tailSlice
      rw [if_neg hk, List.filter_append, hfns, hfd, List.nil_append]
      exact List.drop_suffix _ _
  · rw [if_neg hc]
    refine ⟨?_, rfl, List.suffix_refl _⟩
    rw [nonSystemCount]
    omega

theorem mutation_retention (h : ConversationHistory) (m : Message) (hm : m.isSystem = false)
    (hmt : 1 ≤ h.max_turns) :
    nonSystemCount (ConversationHistory.trim
        { h with messages := h.messages ++ [m] }).messages ≤ h.max_turns * 2
    ∧ (ConversationHistory.trim { h with messages := h.messages ++ [m] }).messages.filter
        Message.isSystem = h.messages.filter Message.isSystem
    ∧ ((ConversationHistory.trim { h with messages := h.messages ++ [m] }).messages.filter
        (fun x => !x.isSystem))
        <:+ ((h.messages ++ [m]).filter (fun x => !x.isSystem)) := by
  have ht := trim_retention { h with messages := h.messages ++ [m] } hmt
  refine ⟨ht.1, ?_, ht.2.2⟩
  rw [ht.2.1]
  show (h.messages ++ [m]).filter Message.isSystem = h.messages.filter Message.isSystem
  rw [List.filter_append]
  have h1 : [m].filter Message.isSystem = [] := by
    simp [List.filter_cons, hm]
  rw [h1, List.append_nil]

theorem stubGateway_false (tc : ToolCallRequest) (t : String) (hs : List Message)
    (h : hs.any Message.isToolMsg = false) :
    stubGateway tc t hs = { content := "", tool_calls := [tc] } := by
  unfold stubGateway
  rw [h]
  simp

theorem stubGateway_true (tc : ToolCallRequest) (t : String) (hs : List Message)
    (h : hs.any Message.isToolMsg = true) :
    stubGateway tc t hs = { content := t, tool_calls := [] } := by
  unfold stubGateway
  rw [h]
  simp

theorem stubGateway_chat (a : Agent) (tc : ToolCallRequest) (t u : String)
    (hempty : a.conversation.messages = []) (hmt : a.conversation.max_turns = 30) :
    (a.chat (stubGateway tc t) u).1 = t := by
  have hcap1 : nonSystemCount a.conversation.messages + 1
      ≤ a.conversation.max_turns * 2 := by
    rw [hempty, hmt]
    decide
  have hu := add_user_eq a.conversation u hcap1
  have hm1 : (a.conversation.add_user u).messages = [Message.HumanMessage u] := by
    rw [hu]
    show a.conversation.messages ++ [Message.HumanMessage u] = [Message.HumanMessage u]
    rw [hempty]
    rfl
  have hmt1 : (a.conversation.add_user u).max_turns = 30 := by
    rw [add_user_max_turns, hmt]
  have hany1 : ((a.conversation.add_user u).get).any Message.isToolMsg = false := by
    rw [get_any_toolMsg, hm1]
    rfl
  have hr1 : stubGateway tc t ((a.conversation.add_user u).get)
      = { content := "", tool_calls := [tc] } :=
    stubGateway_false tc t _ hany1
  have hred : ({ a with conversation := a.conversation.add_user u } : Agent).conversation
      = a.conversation.add_user u := rfl
  have hne1 : ¬ ((({ content := "", tool_calls := [tc] } : Response).tool_calls).isEmpty
      = true) := by
    simp
  show (Agent.chatLoop (stubGateway tc t) 10
      { a with conversation := a.conversation.add_user u }).1 = t
  rw [chatLoop_succ, hred, hr1, if_neg hne1]
  have hle2 : nonSystemCount
        ({ a with conversation := a.conversation.add_user u } : Agent).conversation.messages
      + ((({ content := "", tool_calls := [tc] } : Response).tool_calls).length + 1)
      ≤ ({ a with conversation := a.conversation.add_user u }
          : Agent).conversation.max_turns * 2 := by
    show nonSystemCount (a.conversation.add_user u).messages + ([tc].length + 1)
        ≤ (a.conversation.add_user u).max_turns * 2
    rw [hm1, hmt1, nonSystemCount_single (Message.HumanMessage u) rfl]
    simp only [List.length_cons, List.length_nil]
    omega
  rcases toolStep_spec (stubGateway tc t)
      { a with conversation := a.conversation.add_user u }
      { content := "", tool_calls := [tc] } hr1 hle2 with ⟨hm2, hmt2⟩
  have hm2b : (Agent.toolStep (stubGateway tc t)
      { a with conversation := a.conversation.add_user u }).conversation.messages
      = [Message.HumanMessage u, Message.AIMessage "" [tc],
         Message.ToolMessage (Agent.execute_tool_call
           { a with conversation := a.conversation.add_user u } tc) tc.id] := by
    rw [hm2, hred, hm1]
    simp
  have hany2 : ((Agent.toolStep (stubGateway tc t)
      { a with conversation := a.conversation.add_user u }).conversation.get).any
        Message.isToolMsg = true := by
    rw [get_any_toolMsg, hm2b]
    simp [Message.isToolMsg]
  have hr2 : stubGateway tc t ((Agent.toolStep (stubGateway tc t)
      { a with conversation := a.conversation.add_user u }).conversation.get)
      = { content := t, tool_calls := [] } :=
    stubGateway_true tc t _ hany2
  have hpos : ((({ content := t, tool_calls := [] } : Response).tool_calls).isEmpty
      = true) := by
    simp
  rw [chatLoop_succ, hr2, if_pos hpos]

/-! The claims. -/

/-- Claim C1: the spec demands that trimming never leaves a stored tool
result whose originating assistant message was discarded, extending the
cutoff when a cap boundary falls inside an exchange. The code violates
this: with max_turns 1, after add_user, add_assistant carrying one tool
call, add_tool_result and a final add_assistant, the stored sequence is
exactly a tool result plus the final assistant text, and the tool result
refers to a request no stored assistant message issued — the slice cut
between request and result without any extension. -/
theorem C1_trim_orphan_eval :
    ((((ConversationHistory.mk "" 1 []).add_user "q").add_assistant "" [⟨"a", "t", []⟩]
        |>.add_tool_result "a" "r" |>.add_assistant "done" []).messages
      = [Message.ToolMessage "r" "a", Message.AIMessage "done" []])
    ∧ wellPairedFrom [] ((((ConversationHistory.mk "" 1 []).add_user "q").add_assistant ""
        [⟨"a", "t", []⟩] |>.add_tool_result "a" "r" |>.add_assistant "done" []).messages)
      = false := by
  decide

/-- Claim C2: for every gateway whose every response carries at least one
tool-call request, chat terminates after the 10 capped iterations,
returns the fixed cap sentinel, and the returned state is exactly the
ten-fold tool iteration of the post-user state — the accumulated history
is left in place, nothing is rolled back. -/
theorem C2_cap_sentinel (gw : List Message → Response) (a : Agent) (u : String)
    (hgw : ∀ hs, (gw hs).tool_calls ≠ []) :
    (a.chat gw u).1 = capSentinel
    ∧ (a.chat gw u).2
      = (Agent.toolStep gw)^[10] { a with conversation := a.conversation.add_user u } := by
  have h := chatLoop_always_tools gw hgw 10
    { a with conversation := a.conversation.add_user u }
  constructor
  · show (Agent.chatLoop gw 10
        { a with conversation := a.conversation.add_user u }).1 = capSentinel
    rw [h]
  · show (Agent.chatLoop gw 10
        { a with conversation := a.conversation.add_user u }).2 = _
    rw [h]

/-- Witness for C2: a concrete always-tool-calling gateway on a fresh
agent reaches the cap. -/
theorem C2_cap_sentinel_witness :
    ((Agent.mk "" [] (ConversationHistory.mk "" 30 [])).chat
        (fun _ => Response.mk "" [ToolCallRequest.mk "i" "t" []]) "hi").1 = capSentinel
    ∧ ((Agent.mk "" [] (ConversationHistory.mk "" 30 [])).chat
        (fun _ => Response.mk "" [ToolCallRequest.mk "i" "t" []]) "hi").2
      = (Agent.toolStep (fun _ => Response.mk "" [ToolCallRequest.mk "i" "t" []]))^[10]
          { Agent.mk "" [] (ConversationHistory.mk "" 30 []) with
            conversation := (ConversationHistory.mk "" 30 []).add_user "hi" } :=
  C2_cap_sentinel (fun _ => Response.mk "" [ToolCallRequest.mk "i" "t" []])
    (Agent.mk "" [] (ConversationHistory.mk "" 30 [])) "hi"
    (fun _ => List.cons_ne_nil _ _)

/-- A gateway that, before any tool result exists, issues two tool-call
requests sharing one id, and afterwards answers with final text. -/
def dupIdGateway : List Message → Response :=
  fun hs =>
    if hs.any Message.isToolMsg then { content := "done", tool_calls := [] }
    else
      { content := ""
        tool_calls := [ToolCallRequest.mk "x" "t" [], ToolCallRequest.mk "x" "t" []] }

/-- Counterexample to claim C3 as stated: nothing stops a gateway from
issuing two requests with the same id in one assistant turn; chat then
appends one tool result per request, so the stored history holds two
tool results with id x — the per-id count is neither 0 nor 1. -/
theorem C3_pairing_counterexample :
    ¬ ((resultIds ((Agent.mk "" [] (ConversationHistory.mk "" 30 [])).chat
        dupIdGateway "hi").2.conversation.messages).count "x" ≤ 1) := by
  decide

/-- Claim C3 (amended): when every gateway response carries pairwise
distinct, not previously issued request ids and at most K requests, and
the run starts on an empty history whose retention bound holds the whole
run (no trimming), chat appends exactly one tool result per request in
request order, so in the final history the result ids equal the request
ids as ordered lists, every result follows an earlier assistant request,
and for every id the tool-result count is at most 1 and equals 1 exactly
when some assistant message issued that id. -/
theorem C3_pairing_amended (gw : List Message → Response) (K : Nat) (a : Agent) (u : String)
    (hK : ∀ hs, ((gw hs).tool_calls).length ≤ K)
    (hnd : ∀ hs, (((gw hs).tool_calls).map ToolCallRequest.id).Nodup)
    (hfresh : ∀ hs, ∀ tc ∈ (gw hs).tool_calls, tc.id ∉ requestIds hs)
    (hempty : a.conversation.messages = [])
    (hcap : 1 + 10 * (K + 1) ≤ a.conversation.max_turns * 2) :
    resultIds (a.chat gw u).2.conversation.messages
        = requestIds (a.chat gw u).2.conversation.messages
    ∧ wellPairedFrom [] (a.chat gw u).2.conversation.messages = true
    ∧ ∀ c : String,
        (resultIds (a.chat gw u).2.conversation.messages).count c ≤ 1
        ∧ ((resultIds (a.chat gw u).2.conversation.messages).count c = 1
            ↔ c ∈ requestIds (a.chat gw u).2.conversation.messages) := by
  have h0 : nonSystemCount ([] : List Message) = 0 := rfl
  have hcap1 : nonSystemCount a.conversation.messages + 1
      ≤ a.conversation.max_turns * 2 := by
    rw [hempty, h0]
    omega
  have hu := add_user_eq a.conversation u hcap1
  have hm1 : (a.conversation.add_user u).messages = [Message.HumanMessage u] := by
    rw [hu]
    show a.conversation.messages ++ [Message.HumanMessage u] = [Message.HumanMessage u]
    rw [hempty]
    rfl
  have hmt1 : (a.conversation.add_user u).max_turns = a.conversation.max_turns :=
    add_user_max_turns a.conversation u
  have hloop := chatLoop_resolvedInv gw K hK hnd hfresh 10
    { a with conversation := a.conversation.add_user u }
    (by
      show resolvedInv (a.conversation.add_user u).messages
      rw [hm1]
      exact ⟨rfl, List.nodup_nil, rfl⟩)
    (by
      show nonSystemCount (a.conversation.add_user u).messages + 10 * (K + 1)
          ≤ (a.conversation.add_user u).max_turns * 2
      rw [hm1, hmt1, nonSystemCount_single (Message.HumanMessage u) rfl]
      omega)
  have hfinal : resolvedInv (a.chat gw u).2.conversation.messages := hloop
  obtain ⟨hres, hnodup, hwpf⟩ := hfinal
  have hresNodup : (resultIds (a.chat gw u).2.conversation.messages).Nodup := by
    rw [hres]
    exact hnodup
  refine ⟨hres, hwpf, ?_⟩
  intro c
  refine ⟨List.nodup_iff_count_le_one.mp hresNodup c, ?_, ?_⟩
  · intro h1
    have hmem : c ∈ resultIds (a.chat gw u).2.conversation.messages :=
      List.count_pos_iff.mp (by omega)
    rw [hres] at hmem
    exact hmem
  · intro hmem
    have hmem2 : c ∈ resultIds (a.chat gw u).2.conversation.messages := by
      rw [hres]
      exact hmem
    exact List.count_eq_one_of_mem hresNodup hmem2

/-- Witness for C3 (amended) at a gateway that never requests tools, on a
fresh agent with the default retention bound. -/
theorem C3_pairing_amended_witness :
    resultIds ((Agent.mk "" [] (ConversationHistory.mk "" 30 [])).chat
        (fun _ => Response.mk "done" []) "hi").2.conversation.messages
      = requestIds ((Agent.mk "" [] (ConversationHistory.mk "" 30 [])).chat
        (fun _ => Response.mk "done" []) "hi").2.conversation.messages
    ∧ wellPairedFrom [] ((Agent.mk "" [] (ConversationHistory.mk "" 30 [])).chat
        (fun _ => Response.mk "done" []) "hi").2.conversation.messages = true
    ∧ ∀ c : String,
        (resultIds ((Agent.mk "" [] (ConversationHistory.mk "" 30 [])).chat
          (fun _ => Response.mk "done" []) "hi").2.conversation.messages).count c ≤ 1
        ∧ ((resultIds ((Agent.mk "" [] (ConversationHistory.mk "" 30 [])).chat
            (fun _ => Response.mk "done" []) "hi").2.conversation.messages).count c = 1
            ↔ c ∈ requestIds ((Agent.mk "" [] (ConversationHistory.mk "" 30 [])).chat
              (fun _ => Response.mk "done" []) "hi").2.conversation.messages) :=
  C3_pairing_amended (fun _ => Response.mk "done" []) 0
    (Agent.mk "" [] (ConversationHistory.mk "" 30 [])) "hi"
    (fun _ => by simp) (fun _ => by simp) (fun _ tc htc => by simp at htc)
    rfl (by decide)

/-- Claim C4: when the requested tool name is not registered, execute
returns the fixed not-found report string (it is total, so no exception
can escape), and with a gateway that requests that tool once and then
stops, chat still reaches the next model call and returns its final
text instead of aborting. -/
theorem C4_tool_not_found (a : Agent) (tc : ToolCallRequest) (t u : String)
    (hnf : lookupTool tc.name a.tools = none)
    (hempty : a.conversation.messages = [])
    (hmt : a.conversation.max_turns = 30) :
    a.execute_tool_call tc = "❌ 错误：未找到工具 [" ++ tc.name ++ "]"
    ∧ (a.chat (stubGateway tc t) u).1 = t := by
  constructor
  · simp only [Agent.execute_tool_call, hnf]
  · exact stubGateway_chat a tc t u hempty hmt

/-- Witness for C4: an empty registry, a request for the unknown tool
named ghost, and the two-phase stub gateway. -/
theorem C4_tool_not_found_witness :
    (Agent.mk "" [] (ConversationHistory.mk "" 30 [])).execute_tool_call
        (ToolCallRequest.mk "1" "ghost" [])
      = "❌ 错误：未找到工具 [" ++ "ghost" ++ "]"
    ∧ ((Agent.mk "" [] (ConversationHistory.mk "" 30 [])).chat
        (stubGateway (ToolCallRequest.mk "1" "ghost" []) "done") "hi").1 = "done" :=
  C4_tool_not_found (Agent.mk "" [] (ConversationHistory.mk "" 30 []))
    (ToolCallRequest.mk "1" "ghost" []) "done" "hi" rfl rfl rfl

/-- Claim C5: when a registered tool raises, execute catches the failure
and returns the failure report string carrying the tool name and the
underlying cause (it is total, so nothing propagates out of chat), and
with a gateway that requests that tool once and then stops, chat still
returns its final text. -/
theorem C5_tool_failure (a : Agent) (tc : ToolCallRequest) (tl : Tool) (e t u : String)
    (hfound : lookupTool tc.name a.tools = some tl)
    (herr : tl.invoke tc.args = Except.error e)
    (hempty : a.conversation.messages = [])
    (hmt : a.conversation.max_turns = 30) :
    a.execute_tool_call tc = "❌ 工具执行失败 [" ++ tc.name ++ "]: " ++ e
    ∧ (a.chat (stubGateway tc t) u).1 = t := by
  constructor
  · simp only [Agent.execute_tool_call, hfound, herr]
  · exact stubGateway_chat a tc t u hempty hmt

/-- Witness for C5: a registry holding one always-raising tool named
boom, a request for it, and the two-phase stub gateway. -/
theorem C5_tool_failure_witness :
    (Agent.mk "" [("boom", Tool.mk "boom" (fun _ => Except.error "kaboom"))]
        (ConversationHistory.mk "" 30 [])).execute_tool_call
          (ToolCallRequest.mk "1" "boom" [])
      = "❌ 工具执行失败 [" ++ "boom" ++ "]: " ++ "kaboom"
    ∧ ((Agent.mk "" [("boom", Tool.mk "boom" (fun _ => Except.error "kaboom"))]
        (ConversationHistory.mk "" 30 [])).chat
          (stubGateway (ToolCallRequest.mk "1" "boom" []) "done") "hi").1 = "done" :=
  C5_tool_failure
    (Agent.mk "" [("boom", Tool.mk "boom" (fun _ => Except.error "kaboom"))]
      (ConversationHistory.mk "" 30 []))
    (ToolCallRequest.mk "1" "boom" []) (Tool.mk "boom" (fun _ => Except.error "kaboom"))
    "kaboom" "done" "hi" rfl rfl rfl rfl

/-- Counterexample to claim C6 as stated: with max_turns 0 the Python
slice keeps the whole list (since negative zero is zero), so after
add_user the stored sequence holds one non-system message although the
bound demands at most 2 * max_turns = 0. -/
theorem C6_retention_counterexample :
    ¬ (nonSystemCount ((ConversationHistory.mk "" 0 []).add_user "x").messages
        ≤ (ConversationHistory.mk "" 0 []).max_turns * 2) := by
  decide

/-- Claim C6 (amended): for every history with max_turns at least 1,
after each of the three mutations the stored sequence holds at most
max_turns * 2 non-system messages, all system messages are retained
unconditionally, and the kept non-system messages are a suffix of the
appended sequence, so the most recent messages are the ones kept. -/
theorem C6_retention_amended (h : ConversationHistory) (c s cid : String)
    (tcs : List ToolCallRequest) (hmt : 1 ≤ h.max_turns) :
    (nonSystemCount (h.add_user c).messages ≤ h.max_turns * 2
      ∧ (h.add_user c).messages.filter Message.isSystem
          = h.messages.filter Message.isSystem
      ∧ ((h.add_user c).messages.filter (fun x => !x.isSystem))
          <:+ ((h.messages ++ [Message.HumanMessage c]).filter (fun x => !x.isSystem)))
    ∧ (nonSystemCount (h.add_assistant c tcs).messages ≤ h.max_turns * 2
      ∧ (h.add_assistant c tcs).messages.filter Message.isSystem
          = h.messages.filter Message.isSystem
      ∧ ((h.add_assistant c tcs).messages.filter (fun x => !x.isSystem))
          <:+ ((h.messages ++ [Message.AIMessage c tcs]).filter (fun x => !x.isSystem)))
    ∧ (nonSystemCount (h.add_tool_result cid s).messages ≤ h.max_turns * 2
      ∧ (h.add_tool_result cid s).messages.filter Message.isSystem
          = h.messages.filter Message.isSystem
      ∧ ((h.add_tool_result cid s).messages.filter (fun x => !x.isSystem))
          <:+ ((h.messages ++ [Message.ToolMessage s cid]).filter (fun x => !x.isSystem))) :=
  ⟨mutation_retention h (Message.HumanMessage c) rfl hmt,
   mutation_retention h (Message.AIMessage c tcs) rfl hmt,
   mutation_retention h (Message.ToolMessage s cid) rfl hmt⟩

/-- Witness for C6 (amended) on a history with max_turns 1 already
holding a system and two non-system messages. -/
theorem C6_retention_amended_witness :
    (nonSystemCount ((ConversationHistory.mk "sys" 1
        [Message.SystemMessage "sys", Message.HumanMessage "a",
         Message.AIMessage "b" []]).add_user "u").messages ≤ 1 * 2
      ∧ ((ConversationHistory.mk "sys" 1
        [Message.SystemMessage "sys", Message.HumanMessage "a",
         Message.AIMessage "b" []]).add_user "u").messages.filter Message.isSystem
          = [Message.SystemMessage "sys", Message.HumanMessage "a",
             Message.AIMessage "b" []].filter Message.isSystem
      ∧ (((ConversationHistory.mk "sys" 1
        [Message.SystemMessage "sys", Message.HumanMessage "a",
         Message.AIMessage "b" []]).add_user "u").messages.filter (fun x => !x.isSystem))
          <:+ (([Message.SystemMessage "sys", Message.HumanMessage "a",
                Message.AIMessage "b" []]
              ++ [Message.HumanMessage "u"]).filter (fun x => !x.isSystem)))
    ∧ (nonSystemCount ((ConversationHistory.mk "sys" 1
        [Message.SystemMessage "sys", Message.HumanMessage "a",
         Message.AIMessage "b" []]).add_assistant "u" []).messages ≤ 1 * 2
      ∧ ((ConversationHistory.mk "sys" 1
        [Message.SystemMessage "sys", Message.HumanMessage "a",
         Message.AIMessage "b" []]).add_assistant "u" []).messages.filter Message.isSystem
          = [Message.SystemMessage "sys", Message.HumanMessage "a",
             Message.AIMessage "b" []].filter Message.isSystem
      ∧ (((ConversationHistory.mk "sys" 1
        [Message.SystemMessage "sys", Message.HumanMessage "a",
         Message.AIMessage "b" []]).add_assistant "u" []).messages.filter
            (fun x => !x.isSystem))
          <:+ (([Message.SystemMessage "sys", Message.HumanMessage "a",
                Message.AIMessage "b" []]
              ++ [Message.AIMessage "u" []]).filter (fun x => !x.isSystem)))
    ∧ (nonSystemCount ((ConversationHistory.mk "sys" 1
        [Message.SystemMessage "sys", Message.HumanMessage "a",
         Message.AIMessage "b" []]).add_tool_result "i" "r").messages ≤ 1 * 2
      ∧ ((ConversationHistory.mk "sys" 1
        [Message.SystemMessage "sys", Message.HumanMessage "a",
         Message.AIMessage "b" []]).add_tool_result "i" "r").messages.filter
            Message.isSystem
          = [Message.SystemMessage "sys", Message.HumanMessage "a",
             Message.AIMessage "b" []].filter Message.isSystem
      ∧ (((ConversationHistory.mk "sys" 1
        [Message.SystemMessage "sys", Message.HumanMessage "a",
         Message.AIMessage "b" []]).add_tool_result "i" "r").messages.filter
            (fun x => !x.isSystem))
          <:+ (([Message.SystemMessage "sys", Message.HumanMessage "a",
                Message.AIMessage "b" []]
              ++ [Message.ToolMessage "r" "i"]).filter (fun x => !x.isSystem))) :=
  C6_retention_amended
    (ConversationHistory.mk "sys" 1
      [Message.SystemMessage "sys", Message.HumanMessage "a", Message.AIMessage "b" []])
    "u" "r" "i" [] (by decide)

/-- Claim C7: get returns the full ordered stored sequence with a system
message prepended exactly once if and only if a non-empty system prompt
is configured and no system message is stored; when a system message is
already stored, or no prompt is configured, the stored sequence is
returned unchanged. -/
theorem C7_get_system_prepend (h : ConversationHistory) :
    h.get = if h.system_prompt ≠ "" ∧ ∀ m ∈ h.messages, m.isSystem = false
      then Message.SystemMessage h.system_prompt :: h.messages
      else h.messages := by
  unfold ConversationHistory.get
  by_cases hp : h.system_prompt = ""
  · rw [if_neg (fun hne => hne hp), if_neg (fun hcon => hcon.1 hp)]
  · rw [if_pos hp]
    by_cases hany : h.messages.any Message.isSystem = true
    · rw [if_pos hany, if_neg]
      intro hcon
      rcases List.any_eq_true.mp hany with ⟨x, hx, hxs⟩
      have hx2 := hcon.2 x hx
      rw [hx2] at hxs
      exact Bool.false_ne_true hxs
    · rw [if_neg hany, if_pos]
      refine ⟨hp, ?_⟩
      intro m hm
      cases hsys : m.isSystem
      · rfl
      · exact absurd (List.any_eq_true.mpr ⟨m, hm, hsys⟩) hany

/-- Claim C8: clear_conversation is idempotent — one or two calls both
leave the stored sequence empty and agree on the whole state — the
system prompt persists, the tool registry is untouched, and when the
prompt is non-empty the next get still yields the system message. -/
theorem C8_clear_idempotent (a : Agent) (hp : a.conversation.system_prompt ≠ "") :
    a.clear_conversation.conversation.messages = []
    ∧ a.clear_conversation.clear_conversation.conversation.messages = []
    ∧ a.clear_conversation.clear_conversation = a.clear_conversation
    ∧ a.clear_conversation.conversation.system_prompt = a.conversation.system_prompt
    ∧ a.clear_conversation.tools = a.tools
    ∧ a.clear_conversation.conversation.get
      = [Message.SystemMessage a.conversation.system_prompt] := by
  refine ⟨rfl, rfl, rfl, rfl, rfl, ?_⟩
  show ConversationHistory.get { a.conversation with messages := [] } = _
  unfold ConversationHistory.get
  rw [if_pos hp, if_neg]
  simp

/-- Witness for C8 on an agent built by the constructor with the prompt
p. -/
theorem C8_clear_idempotent_witness :
    (Agent.init (some "p")).clear_conversation.conversation.messages = []
    ∧ (Agent.init (some "p")).clear_conversation.clear_conversation.conversation.messages
      = []
    ∧ (Agent.init (some "p")).clear_conversation.clear_conversation
      = (Agent.init (some "p")).clear_conversation
    ∧ (Agent.init (some "p")).clear_conversation.conversation.system_prompt
      = (Agent.init (some "p")).conversation.system_prompt
    ∧ (Agent.init (some "p")).clear_conversation.tools = (Agent.init (some "p")).tools
    ∧ (Agent.init (some "p")).clear_conversation.conversation.get
      = [Message.SystemMessage (Agent.init (some "p")).conversation.system_prompt] :=
  C8_clear_idempotent (Agent.init (some "p")) (by decide)

/-- Claim C9: when the first gateway response after the user message
carries no tool-call requests, chat returns exactly its text content,
appends that content as a final assistant message at the very end of the
stored history, and already the one-iteration loop produces the same
outcome — one loop iteration suffices. -/
theorem C9_final_text (gw : List Message → Response) (a : Agent) (u : String)
    (htc : (gw (a.conversation.add_user u).get).tool_calls = [])
    (hcap : nonSystemCount (a.conversation.add_user u).messages + 1
        ≤ (a.conversation.add_user u).max_turns * 2) :
    (a.chat gw u).1 = (gw (a.conversation.add_user u).get).content
    ∧ (a.chat gw u).2.conversation.messages
      = (a.conversation.add_user u).messages
        ++ [Message.AIMessage (gw (a.conversation.add_user u).get).content []]
    ∧ Agent.chatLoop gw 1 { a with conversation := a.conversation.add_user u }
      = a.chat gw u := by
  have hred : ({ a with conversation := a.conversation.add_user u } : Agent).conversation
      = a.conversation.add_user u := rfl
  have hemp : ((gw ({ a with conversation := a.conversation.add_user u }
      : Agent).conversation.get).tool_calls).isEmpty = true := by
    rw [hred, htc]
    rfl
  refine ⟨?_, ?_, ?_⟩
  · show (Agent.chatLoop gw 10 { a with conversation := a.conversation.add_user u }).1 = _
    rw [chatLoop_succ, if_pos hemp]
  · show (Agent.chatLoop gw 10
        { a with conversation := a.conversation.add_user u }).2.conversation.messages = _
    rw [chatLoop_succ, if_pos hemp]
    show ((a.conversation.add_user u).add_assistant
        (gw ({ a with conversation := a.conversation.add_user u }
          : Agent).conversation.get).content []).messages = _
    rw [hred, add_assistant_eq (a.conversation.add_user u)
      (gw (a.conversation.add_user u).get).content [] hcap]
  · show Agent.chatLoop gw 1 { a with conversation := a.conversation.add_user u }
        = Agent.chatLoop gw 10 { a with conversation := a.conversation.add_user u }
    rw [chatLoop_succ, if_pos hemp, chatLoop_succ, if_pos hemp]

/-- Witness for C9: a gateway that immediately answers done, on a fresh
agent. -/
theorem C9_final_text_witness :
    ((Agent.mk "" [] (ConversationHistory.mk "" 30 [])).chat
        (fun _ => Response.mk "done" []) "hello").1
      = ((fun _ => Response.mk "done" [])
          (((ConversationHistory.mk "" 30 []).add_user "hello").get)).content
    ∧ ((Agent.mk "" [] (ConversationHistory.mk "" 30 [])).chat
        (fun _ => Response.mk "done" []) "hello").2.conversation.messages
      = ((ConversationHistory.mk "" 30 []).add_user "hello").messages
        ++ [Message.AIMessage ((fun _ => Response.mk "done" [])
            (((ConversationHistory.mk "" 30 []).add_user "hello").get)).content []]
    ∧ Agent.chatLoop (fun _ => Response.mk "done" []) 1
        { Agent.mk "" [] (ConversationHistory.mk "" 30 []) with
          conversation := (ConversationHistory.mk "" 30 []).add_user "hello" }
      = (Agent.mk "" [] (ConversationHistory.mk "" 30 [])).chat
          (fun _ => Response.mk "done" []) "hello" :=
  C9_final_text (fun _ => Response.mk "done" [])
    (Agent.mk "" [] (ConversationHistory.mk "" 30 [])) "hello" rfl (by decide)

/-- Claim C10: get never mutates the stored state — its translation
returns the receiver unchanged, any number of consecutive calls leave
the state equal and return equal lists, the returned list is either the
stored one or a fresh cons of a system message onto it, and the result
never carries more than one system message unless the store already
did. -/
theorem C10_get_pure (h : ConversationHistory) (n : Nat) :
    h.getCall.2 = h
    ∧ (ConversationHistory.getCallIter n h).2 = h
    ∧ (∀ l ∈ (ConversationHistory.getCallIter n h).1, l = h.get)
    ∧ (h.get = h.messages ∨ h.get = Message.SystemMessage h.system_prompt :: h.messages)
    ∧ systemCount h.get ≤ max 1 (systemCount h.messages) := by
  refine ⟨rfl, ?_, ?_, get_eq_or h, ?_⟩
  · induction n with
    | zero => rfl
    | succ k ih =>
      show (ConversationHistory.getCallIter k h).2 = h
      exact ih
  · induction n with
    | zero =>
      intro l hl
      exact absurd hl (List.not_mem_nil l)
    | succ k ih =>
      intro l hl
      rcases List.mem_cons.mp hl with h1 | h2
      · rw [h1]
        rfl
      · exact ih l h2
  · unfold ConversationHistory.get
    by_cases hp : h.system_prompt = ""
    · rw [if_neg (fun hne => hne hp)]
      exact le_max_right _ _
    · rw [if_pos hp]
      by_cases hany : h.messages.any Message.isSystem = true
      · rw [if_pos hany]
        exact le_max_right _ _
      · rw [if_neg hany]
        have h0 : systemCount h.messages = 0 := by
          rw [systemCount, List.length_eq_zero, List.filter_eq_nil_iff]
          intro x hx hxs
          exact hany (List.any_eq_true.mpr ⟨x, hx, hxs⟩)
        have h1 : systemCount (Message.SystemMessage h.system_prompt :: h.messages)
            = systemCount h.messages + 1 := by
          simp [systemCount, List.filter_cons, Message.isSystem]
        omega
